import Mathlib

/- Shallow embedding of the crawl-and-extract pricing pipeline
   (sd_scrape.py, b2_scrape.py, ws_scrape.py).  URLs and page texts are
   lists of characters; Python string operations used by the source
   (split, lower, endswith, substring membership) are translated to the
   corresponding list operations. -/

set_option linter.unusedVariables false

abbrev Url := List Char

/-- Python substring membership `p in s`: `p` occurs as a contiguous
segment of `s`. -/
def substringOf (p : List Char) : List Char → Bool
  | [] => p.isEmpty
  | c :: rest => p.isPrefixOf (c :: rest) || substringOf p rest

/-- Python `s.split(c)[0]` (also `s.split(c, 1)[0]`): the longest prefix of
`s` strictly before the first occurrence of the character `c`. -/
def splitBefore (c : Char) (s : List Char) : List Char :=
  s.takeWhile (fun a => a != c)

/-- sd_scrape / ws_scrape link normalization (`href.split("#")[0]`):
strip the fragment only; the query string is kept. -/
def sdNormalize (s : Url) : Url :=
  splitBefore '#' s

/-- b2_scrape enqueue-side normalization (`href.split('#')[0].split('?', 1)[0]`):
strip the fragment, then the query string. -/
def b2Normalize (s : Url) : Url :=
  splitBefore '?' (splitBefore '#' s)

/-- b2_scrape dequeue-side normalization (`raw.split('?', 1)[0]`). -/
def b2DequeueNormalize (s : Url) : Url :=
  splitBefore '?' s

/-- Python `c.lower()` on each character (`str.lower`, ASCII range as used
by the source's URL comparisons). -/
def lowerUrl (s : Url) : Url :=
  s.map Char.toLower

/-- Excluded URL patterns of sd_scrape.crawl_site (substring denylist). -/
def sdExcludedPatterns : List Url :=
  [ "https://www.showdowndisplays.com/cdn".toList,
    "https://www.showdowndisplays.com/Account".toList,
    "https://www.showdowndisplays.com/Cart".toList,
    "https://www.showdowndisplays.com/ProductSearch".toList,
    "&navCode=".toList ]

/-- Download extensions of sd_scrape.crawl_site (extension denylist). -/
def sdDownloadExtensions : List Url :=
  [ ".pdf".toList, ".doc".toList, ".docx".toList, ".xls".toList,
    ".xlsx".toList, ".zip".toList, ".rar".toList, ".7z".toList,
    ".exe".toList, ".tar".toList, ".gz".toList, ".mp3".toList,
    ".mp4".toList ]

/-- `any(pattern in url for pattern in excluded_patterns)` for sd_scrape. -/
def sdPatternMatch (url : Url) : Bool :=
  sdExcludedPatterns.any (fun p => substringOf p url)

/-- `any(url.lower().endswith(ext) for ext in download_extensions)` for
sd_scrape. -/
def sdExtMatch (url : Url) : Bool :=
  sdDownloadExtensions.any (fun e => e.isSuffixOf (lowerUrl url))

/-- Excluded URL list of b2_scrape.crawl_site (substring denylist,
`any(ex in url for ex in excluded)`). -/
def b2ExcludedPatterns : List Url :=
  [ "https://www.b2sign.com/user".toList,
    "https://www.b2sign.com/downloadable".toList,
    "https://www.b2sign.com/item/download".toList,
    "https://www.b2sign.com/template-user-guide".toList,
    "https://www.b2sign.com/aluminum-sign".toList,
    "https://www.b2sign.com/reflective-aluminum-sign".toList,
    "https://www.b2sign.com/dry-erase-pvc-board".toList,
    "https://www.b2sign.com/coroplast".toList,
    "https://www.b2sign.com/dry-erase-foamcore".toList,
    "https://www.b2sign.com/reflective-aluminum-sandwich-board".toList,
    "https://www.b2sign.com/dry-erase-magnet".toList,
    "https://www.b2sign.com/reflective-car-magnet".toList,
    "https://www.b2sign.com/reflective-coroplast".toList,
    "https://www.b2sign.com/canvas-wrap".toList,
    "https://www.b2sign.com/pole-banner-set".toList,
    "https://www.b2sign.com/foamcore".toList,
    "https://www.b2sign.com/dry-erase-coroplast".toList,
    "https://www.b2sign.com/pvc-board".toList,
    "https://www.b2sign.com/dry-erase-aluminum-sandwich-board".toList,
    "https://www.b2sign.com/aluminum-sandwich-board".toList ]

/-- Extension skip list of b2_scrape.crawl_site. -/
def b2ExtSkip : List Url :=
  [ ".pdf".toList, ".doc".toList, ".docx".toList, ".xls".toList,
    ".xlsx".toList, ".zip".toList, ".rar".toList, ".7z".toList,
    ".exe".toList, ".tar".toList, ".gz".toList, ".mp3".toList,
    ".mp4".toList, ".png".toList ]

def b2PatternMatch (url : Url) : Bool :=
  b2ExcludedPatterns.any (fun p => substringOf p url)

def b2ExtMatch (url : Url) : Bool :=
  b2ExtSkip.any (fun e => e.isSuffixOf (lowerUrl url))

/-- Excluded URL patterns of ws_scrape.crawl_site. -/
def wsExcludedPatterns : List Url :=
  [ "https://www.wsdisplay.com/cart".toList,
    "https://www.wsdisplay.com/webstore".toList,
    "https://www.wsdisplay.com/webs-tore".toList,
    "https://www.wsdisplay.com/search?".toList,
    "#".toList ]

/-- Download extensions of ws_scrape.crawl_site. -/
def wsDownloadExtensions : List Url :=
  [ ".pdf".toList, ".doc".toList, ".docx".toList, ".xls".toList,
    ".xlsx".toList, ".zip".toList, ".rar".toList, ".7z".toList,
    ".exe".toList, ".tar".toList, ".gz".toList, ".mp3".toList,
    ".mp4".toList, ".dwg".toList ]

def wsPatternMatch (url : Url) : Bool :=
  wsExcludedPatterns.any (fun p => substringOf p url)

def wsExtMatch (url : Url) : Bool :=
  wsDownloadExtensions.any (fun e => e.isSuffixOf (lowerUrl url))

/-- `"?display=" in url.lower()` check of ws_scrape. -/
def wsDisplayMatch (url : Url) : Bool :=
  substringOf ("?display=".toList) (lowerUrl url)

/-- The part of `s` after the first occurrence of `//`, if any.  Helper
for `netloc`. -/
def afterDoubleSlash : List Char → Option (List Char)
  | [] => none
  | '/' :: '/' :: rest => some rest
  | _ :: rest => afterDoubleSlash rest

/-- Models `urllib.parse.urlparse(s).netloc` for the absolute
`scheme://host/...` URLs handed back by the browser: the segment between
the first `//` and the next `/`, `?` or `#`. -/
def netloc (s : Url) : Url :=
  match afterDoubleSlash s with
  | none => []
  | some rest => rest.takeWhile (fun c => !(c == '/' || c == '?' || c == '#'))

/-- Python `set.add`: insert without duplicating. -/
def addSet (u : Url) (s : List Url) : List Url :=
  if u ∈ s then s else u :: s

/-- What the crawler observes about a fetched page: the classifier's verdict
(is_product_page) and the href attributes of the page's anchor elements. -/
structure Page where
  isProduct : Bool
  links : List Url
deriving DecidableEq

/-- The crawl loop's state: the visited set, the product-URL set, the pending
queue, and — as observational instrumentation, not a variable of the source —
the ordered log of URLs for which a page fetch was attempted. -/
structure CrawlState where
  visited : List Url
  products : List Url
  queue : List Url
  fetchLog : List Url
deriving DecidableEq

/-- The link-enqueueing loop of sd_scrape.crawl_site (lines 139-154): keep
hrefs that are truthy, match no excluded pattern, have no download
extension, and are same-domain; normalize (strip fragment) and enqueue if
not already visited or scraped.  The queue itself is not consulted, so the
same link can be enqueued twice. -/
def sdLinkEnqueue (baseDomain : Url) (visited already : List Url)
    (hrefs : List Url) : List Url :=
  hrefs.filterMap (fun href =>
    if href.isEmpty then none
    else if sdPatternMatch href then none
    else if sdExtMatch href then none
    else if netloc href = baseDomain then
      if sdNormalize href ∉ visited ∧ sdNormalize href ∉ already then
        some (sdNormalize href)
      else none
    else none)

/-- sd_scrape.crawl_site's while loop (lines 107-155).  `fetch u = none`
models `driver.get(u)` raising: the source then `continue`s WITHOUT adding
the URL to `visited`.  On a successful fetch the URL is marked visited, is
added to the product set when it is not the base URL and the classifier
says product, and the page's links are enqueued. -/
def sdCrawlLoop (fetch : Url → Option Page) (baseUrl : Url) (already : List Url)
    (maxPages : Nat) :
    List Url → List Url → List Url → List Url → CrawlState
  | [], visited, products, fetchLog => ⟨visited, products, [], fetchLog⟩
  | current :: rest, visited, products, fetchLog =>
    if hlen : visited.length < maxPages then
      if hmem : current ∈ visited ∨ current ∈ already then
        sdCrawlLoop fetch baseUrl already maxPages rest visited products fetchLog
      else if hpat : sdPatternMatch current = true then
        sdCrawlLoop fetch baseUrl already maxPages rest (current :: visited)
          products fetchLog
      else if hext : sdExtMatch current = true then
        sdCrawlLoop fetch baseUrl already maxPages rest (current :: visited)
          products fetchLog
      else
        match fetch current with
        | none =>
          sdCrawlLoop fetch baseUrl already maxPages rest visited products
            (fetchLog ++ [current])
        | some page =>
          sdCrawlLoop fetch baseUrl already maxPages
            (rest ++ sdLinkEnqueue (netloc baseUrl) (current :: visited) already
              page.links)
            (current :: visited)
            (if current ≠ baseUrl ∧ page.isProduct = true then
              addSet current products
            else products)
            (fetchLog ++ [current])
    else ⟨visited, products, current :: rest, fetchLog⟩
termination_by q visited => (maxPages - visited.length, q.length)
decreasing_by
  all_goals first
  | (apply Prod.Lex.right; simp only [List.length_cons]; omega)
  | (apply Prod.Lex.left; simp only [List.length_cons]; omega)

/-- sd_scrape.crawl_site: seed the queue with the base URL, start with empty
visited and product sets. -/
def sd_crawl_site (fetch : Url → Option Page) (baseUrl : Url) (already : List Url)
    (maxPages : Nat) : CrawlState :=
  sdCrawlLoop fetch baseUrl already maxPages [baseUrl] [] [] []

/-- Fuel-indexed copy of `sdCrawlLoop`, used to evaluate concrete runs
(well-founded recursion does not reduce definitionally). -/
def sdCrawlFuel (fetch : Url → Option Page) (baseUrl : Url) (already : List Url)
    (maxPages : Nat) :
    Nat → List Url → List Url → List Url → List Url → Option CrawlState
  | 0, _, _, _, _ => none
  | fuel + 1, q, visited, products, fetchLog =>
    match q with
    | [] => some ⟨visited, products, [], fetchLog⟩
    | current :: rest =>
      if visited.length < maxPages then
        if current ∈ visited ∨ current ∈ already then
          sdCrawlFuel fetch baseUrl already maxPages fuel rest visited products
            fetchLog
        else if sdPatternMatch current = true then
          sdCrawlFuel fetch baseUrl already maxPages fuel rest
            (current :: visited) products fetchLog
        else if sdExtMatch current = true then
          sdCrawlFuel fetch baseUrl already maxPages fuel rest
            (current :: visited) products fetchLog
        else
          match fetch current with
          | none =>
            sdCrawlFuel fetch baseUrl already maxPages fuel rest visited products
              (fetchLog ++ [current])
          | some page =>
            sdCrawlFuel fetch baseUrl already maxPages fuel
              (rest ++ sdLinkEnqueue (netloc baseUrl) (current :: visited)
                already page.links)
              (current :: visited)
              (if current ≠ baseUrl ∧ page.isProduct = true then
                addSet current products
              else products)
              (fetchLog ++ [current])
      else some ⟨visited, products, current :: rest, fetchLog⟩

/-- ws_scrape.crawl_site's combined exclusion test (line 211-212): excluded
pattern, download extension, or a `?display=` query. -/
def wsUrlSkip (url : Url) : Bool :=
  wsPatternMatch url || wsExtMatch url || wsDisplayMatch url

/-- The link-enqueueing loop of ws_scrape.crawl_site (lines 237-255). -/
def wsLinkEnqueue (baseDomain : Url) (visited skipUrls : List Url)
    (hrefs : List Url) : List Url :=
  hrefs.filterMap (fun href =>
    if wsPatternMatch href then none
    else if wsExtMatch href then none
    else if wsDisplayMatch href then none
    else if netloc href = baseDomain then
      if sdNormalize href ∉ visited ∧ sdNormalize href ∉ skipUrls then
        some (sdNormalize href)
      else none
    else none)

/-- ws_scrape.crawl_site's while loop (lines 207-258).  As in sd_scrape, a
fetch exception `continue`s without marking the URL visited.  Link
extraction is skipped when the current URL contains `/newReview` or
`?display=`. -/
def wsCrawlLoop (fetch : Url → Option Page) (baseUrl : Url) (skipUrls : List Url)
    (maxPages : Nat) :
    List Url → List Url → List Url → List Url → CrawlState
  | [], visited, products, fetchLog => ⟨visited, products, [], fetchLog⟩
  | current :: rest, visited, products, fetchLog =>
    if hlen : visited.length < maxPages then
      if hmem : current ∈ visited then
        wsCrawlLoop fetch baseUrl skipUrls maxPages rest visited products fetchLog
      else if hskip : wsUrlSkip current = true then
        wsCrawlLoop fetch baseUrl skipUrls maxPages rest (current :: visited)
          products fetchLog
      else
        match fetch current with
        | none =>
          wsCrawlLoop fetch baseUrl skipUrls maxPages rest visited products
            (fetchLog ++ [current])
        | some page =>
          if substringOf ("/newReview".toList) current || wsDisplayMatch current then
            wsCrawlLoop fetch baseUrl skipUrls maxPages rest (current :: visited)
              (if current ≠ baseUrl ∧ page.isProduct = true ∧ current ∉ skipUrls
                then addSet current products else products)
              (fetchLog ++ [current])
          else
            wsCrawlLoop fetch baseUrl skipUrls maxPages
              (rest ++ wsLinkEnqueue (netloc baseUrl) (current :: visited)
                skipUrls page.links)
              (current :: visited)
              (if current ≠ baseUrl ∧ page.isProduct = true ∧ current ∉ skipUrls
                then addSet current products else products)
              (fetchLog ++ [current])
    else ⟨visited, products, current :: rest, fetchLog⟩
termination_by q visited => (maxPages - visited.length, q.length)
decreasing_by
  all_goals first
  | (apply Prod.Lex.right; simp only [List.length_cons]; omega)
  | (apply Prod.Lex.left; simp only [List.length_cons]; omega)

/-- ws_scrape.crawl_site from its initial state. -/
def ws_crawl_site (fetch : Url → Option Page) (baseUrl : Url) (skipUrls : List Url)
    (maxPages : Nat) : CrawlState :=
  wsCrawlLoop fetch baseUrl skipUrls maxPages [baseUrl] [] [] []

/-- b2_scrape's MAX_RETRIES constant. -/
def MAX_RETRIES : Nat := 5

/-- The attempt loop of b2_scrape.load_page_with_retry: `ok i` tells whether
attempt `i` (1-based) succeeds; `remaining` is structural fuel, always
started at MAX_RETRIES so the 0 case is never reached.  Result `true` means
the function returned; `false` means it raised SystemExit after the last
attempt. -/
def loadRetryAux (ok : Nat → Bool) : Nat → Nat → Bool
  | 0, _ => false
  | remaining + 1, attempt =>
    if ok attempt then true
    else if attempt < MAX_RETRIES then loadRetryAux ok remaining (attempt + 1)
    else false

/-- b2_scrape.load_page_with_retry (lines 46-57): up to MAX_RETRIES attempts
starting from attempt 1. -/
def load_page_with_retry (ok : Nat → Bool) : Bool :=
  loadRetryAux ok MAX_RETRIES 1

/-- The combined dequeue-side skip test of b2_scrape.crawl_site
(lines 127-132), evaluated on the query-stripped URL. -/
def b2DequeueExcluded (visited already : List Url) (raw : Url) : Bool :=
  decide (b2DequeueNormalize raw ∈ visited) ||
    decide (b2DequeueNormalize raw ∈ already) ||
    b2ExtMatch (b2DequeueNormalize raw) ||
    b2PatternMatch (b2DequeueNormalize raw)

/-- The link-enqueueing loop of b2_scrape.crawl_site (lines 149-154):
same-domain hrefs are normalized (fragment and query stripped) and enqueued
when not already visited or scraped; no pattern or extension check is done
at enqueue time. -/
def b2LinkEnqueue (baseDomain : Url) (visited already : List Url)
    (hrefs : List Url) : List Url :=
  hrefs.filterMap (fun href =>
    if netloc href = baseDomain then
      if b2Normalize href ∉ visited ∧ b2Normalize href ∉ already then
        some (b2Normalize href)
      else none
    else none)

/-- b2_scrape.crawl_site's while loop (lines 122-156).  The dequeued raw URL
is query-stripped first; the skip test adds the URL to visited and
continues; a load failure (load_page_with_retry exhausting its budget,
SystemExit caught at lines 139-142) ALSO adds the URL to visited before
continuing. -/
def b2CrawlLoop (ok : Url → Nat → Bool) (pageOf : Url → Page) (baseUrl : Url)
    (already : List Url) (maxPages : Nat) :
    List Url → List Url → List Url → List Url → CrawlState
  | [], visited, products, fetchLog => ⟨visited, products, [], fetchLog⟩
  | raw :: rest, visited, products, fetchLog =>
    if hlen : visited.length < maxPages then
      if hskip : b2DequeueExcluded visited already raw = true then
        b2CrawlLoop ok pageOf baseUrl already maxPages rest
          (addSet (b2DequeueNormalize raw) visited) products fetchLog
      else
        if hload : load_page_with_retry (ok (b2DequeueNormalize raw)) = true then
          b2CrawlLoop ok pageOf baseUrl already maxPages
            (rest ++ b2LinkEnqueue (netloc baseUrl)
              (b2DequeueNormalize raw :: visited) already
              (pageOf (b2DequeueNormalize raw)).links)
            (b2DequeueNormalize raw :: visited)
            (if b2DequeueNormalize raw ≠ baseUrl ∧
                (pageOf (b2DequeueNormalize raw)).isProduct = true then
              addSet (b2DequeueNormalize raw) products
            else products)
            (fetchLog ++ [b2DequeueNormalize raw])
        else
          b2CrawlLoop ok pageOf baseUrl already maxPages rest
            (b2DequeueNormalize raw :: visited) products
            (fetchLog ++ [b2DequeueNormalize raw])
    else ⟨visited, products, raw :: rest, fetchLog⟩
termination_by q visited => (maxPages - visited.length, q.length)
decreasing_by
  · by_cases hv : b2DequeueNormalize current ∈ visited
    · simp only [addSet, if_pos hv]
      apply Prod.Lex.right
      simp only [List.length_cons]
      omega
    · simp only [addSet, if_neg hv]
      apply Prod.Lex.left
      simp only [List.length_cons]
      omega
  · apply Prod.Lex.left
    simp only [List.length_cons]
    omega
  · apply Prod.Lex.left
    simp only [List.length_cons]
    omega

/-- b2_scrape.crawl_site from its initial state. -/
def b2_crawl_site (ok : Url → Nat → Bool) (pageOf : Url → Page) (baseUrl : Url)
    (already : List Url) (maxPages : Nat) : CrawlState :=
  b2CrawlLoop ok pageOf baseUrl already maxPages [baseUrl] [] [] []

/-- The per-product loops of b2_scrape.main (lines 356-358 and 401-403):
each URL's page is loaded with load_page_with_retry OUTSIDE any
try/except, so a load failure raises SystemExit out of the loop and aborts
the run (modeled as `.error ()`); `handle u` abstracts the rows the
successful branch appends for product u. -/
def b2ProcessUrls {α : Type} (ok : Url → Nat → Bool) (handle : Url → List α) :
    List Url → Except Unit (List α)
  | [] => .ok []
  | u :: rest =>
    if load_page_with_retry (ok u) = true then
      match b2ProcessUrls ok handle rest with
      | .ok rows => .ok (handle u ++ rows)
      | .error e => .error e
    else .error ()

/-- Python `re.sub(r'[^0-9.]', '', s)`: keep only digits and dots
(b2_scrape.parse_price_table line 180). -/
def stripNonNumDot (s : List Char) : List Char :=
  s.filter (fun c => c.isDigit || c == '.')

/-- The natural number denoted by a digit string, most significant digit
first. -/
def digitsVal (s : List Char) : Nat :=
  s.foldl (fun acc c => 10 * acc + (c.toNat - '0'.toNat)) 0

/-- Python `float(s)` restricted to digits-and-dots strings (the only shape
parse_price_table can pass it): defined iff the string holds at least one
digit and at most one dot; `""`, `"."` and `"1.2.3"` raise ValueError
(`none` here).  The numeric value is modeled exactly as a rational. -/
def pyFloatNum (s : List Char) : Option ℚ :=
  if s.any Char.isDigit ∧ s.count '.' ≤ 1 then
    some ((digitsVal (s.takeWhile (fun c => c != '.')) : ℚ) +
      (digitsVal ((s.dropWhile (fun c => c != '.')).drop 1) : ℚ) /
        ((10 : ℚ) ^ ((s.dropWhile (fun c => c != '.')).drop 1).length))
  else none

/-- b2_scrape.parse_price_table (lines 173-184), as a function of the
subtotal element's displayed text.  The 20-second wait succeeds iff the
text contains a dollar sign (otherwise TimeoutException, caught: None).
On success the text is stripped to digits and dots; an empty residue
yields None, and a residue float() rejects raises an uncaught ValueError,
modeled as `.error ()` (the except clause catches TimeoutException only). -/
def parse_price_table (txt : List Char) : Except Unit (Option ℚ) :=
  if '$' ∈ txt then
    if (stripNonNumDot txt).isEmpty then .ok none
    else
      match pyFloatNum (stripNonNumDot txt) with
      | some q => .ok (some q)
      | none => .error ()
  else .ok none

/-- The price cell written by b2_scrape.main (`price or ""`, lines 379, 390,
429, 440): `none` is the empty string cell; a parsed price of exactly 0.0
is falsy in Python and also becomes the empty cell. -/
def priceCell (price : Option ℚ) : Option ℚ :=
  match price with
  | some q => if q = 0 then none else some q
  | none => none

/-- Python `sep.join(parts)`. -/
def joinSep (sep : Url) : List Url → Url
  | [] => []
  | [x] => x
  | x :: y :: xs => x ++ sep ++ joinSep sep (y :: xs)

/-- itertools.product(*lists): every selection of one element per list, the
rightmost factor varying fastest. -/
def pyProduct {α : Type} : List (List α) → List (List α)
  | [] => [[]]
  | l :: ls => l.flatMap (fun a => (pyProduct ls).map (fun t => a :: t))

/-- `"; ".join(f"{n}: {v}" for n, v in zip(attrs.keys(), combo))`
(b2_scrape.main line 432). -/
def optStr (names : List Url) (combo : List Url) : Url :=
  joinSep ("; ".toList)
    (List.zipWith (fun n v => n ++ (": ".toList) ++ v) names combo)

/-- First-occurrence dedup against an explicit seen-set: the role of the
`seen` set in b2_scrape.main's combination loop. -/
def seenFilter (seen : List Url) : List Url → List Url
  | [] => []
  | s :: rest =>
    if s ∈ seen then seenFilter seen rest else s :: seenFilter (s :: seen) rest

/-- One `_attribute_` block of a b2 product page as set_attribute can
observe it: the label span's text when present, the block's id attribute,
the texts of its button-group items, and the (cleaned) option texts of
each of its MUI select containers. -/
structure B2AttrBlock where
  label : Option Url
  elemId : Url
  buttonItems : List Url
  selectOptions : List (List Url)
deriving DecidableEq

/-- `name.lower().replace(" ", "_")` (b2_scrape.set_attribute line 259). -/
def pySlug (name : Url) : Url :=
  (lowerUrl name).map (fun c => if c == ' ' then '_' else c)

/-- The XPath lookup of b2_scrape.set_attribute (lines 260-265): the first
attribute block whose label span text equals the name, or whose id
contains the slug. -/
def findAttrBlock (blocks : List B2AttrBlock) (name : Url) : Option B2AttrBlock :=
  blocks.find? (fun b => b.label == some name || substringOf (pySlug name) b.elemId)

/-- The page's current attribute-selection state, threaded through
set_attribute calls; clicking an option applies (name, value). -/
abbrev DomState := List (Url × Url)

/-- Record that attribute `name` now holds `value`. -/
def setSel (st : DomState) (name value : Url) : DomState :=
  match st with
  | [] => [(name, value)]
  | (n, v) :: rest =>
    if n = name then (name, value) :: rest else (n, v) :: setSel rest name value

/-- b2_scrape.set_attribute (lines 258-312): find the attribute block (not
found → print and return, state unchanged); click the first button-group
item whose text equals the value, else the first matching MUI option in
any select container; when nothing matches, every container is closed
again and the function falls off the end — nothing is raised and the
page's selection state is unchanged. -/
def set_attribute (blocks : List B2AttrBlock) (st : DomState)
    (name value : Url) : DomState :=
  match findAttrBlock blocks name with
  | none => st
  | some b =>
    if value ∈ b.buttonItems then setSel st name value
    else if b.selectOptions.any (fun opts => value ∈ opts) then setSel st name value
    else st

/-- `for n, v in zip(attrs.keys(), combo): set_attribute(driver, n, v)`
(b2_scrape.main lines 437-438). -/
def applyCombo (blocks : List B2AttrBlock) (names combo : List Url)
    (st : DomState) : DomState :=
  (List.zip names combo).foldl (fun acc nv => set_attribute blocks acc nv.1 nv.2) st

/-- One output row of b2_scrape.main, restricted to the fields the claims
are about: the option string and the price cell. -/
structure B2Row where
  opts : Url
  price : Option ℚ
deriving DecidableEq

/-- The per-combination loop of b2_scrape.main (lines 431-440): combinations
whose option string was already seen are skipped; otherwise every
(name, value) pair is applied with set_attribute, the price is read
(priceOf abstracts parse_price_table as a function of the page state), and
a row is appended unconditionally — selection failures do not suppress the
row. -/
def b2ComboLoop (blocks : List B2AttrBlock) (priceOf : DomState → Option ℚ)
    (names : List Url) :
    List (List Url) → List Url → DomState → List B2Row
  | [], _, _ => []
  | combo :: rest, seen, st =>
    if optStr names combo ∈ seen then b2ComboLoop blocks priceOf names rest seen st
    else
      ⟨optStr names combo,
        priceCell (priceOf (applyCombo blocks names combo st))⟩ ::
        b2ComboLoop blocks priceOf names rest (optStr names combo :: seen)
          (applyCombo blocks names combo st)

/-- The per-product extraction of b2_scrape.main (lines 426-440): no
attributes → exactly one default-price row with an empty option string;
otherwise the seen-deduplicated combination loop over itertools.product of
the option lists. -/
def b2ProductRows (blocks : List B2AttrBlock) (priceOf : DomState → Option ℚ)
    (attrs : List (Url × List Url)) (st : DomState) : List B2Row :=
  if attrs.isEmpty then [⟨[], priceCell (priceOf st)⟩]
  else
    b2ComboLoop blocks priceOf (attrs.map Prod.fst)
      (pyProduct (attrs.map Prod.snd)) [] st

/-- Validity of one ws combination (ws_scrape.process_product_page lines
357-373): each selection step (re-find dropdown j, select_by_value) must
succeed; the source sets valid_combo = False and breaks at the first
failure. -/
def wsComboValid (selOk : Nat → Url × Url → Bool) : Nat → List (Url × Url) → Bool
  | _, [] => true
  | j, o :: rest => if selOk j o then wsComboValid selOk (j + 1) rest else false

/-- What ws_scrape.process_pricing_data hands back: a quantity/price table
or a single price text. -/
inductive WsPricing where
  | table (qtys prices : List Url)
  | text (t : Url)
deriving DecidableEq

/-- One entry appended to option_data by ws_scrape.process_product_page. -/
structure WsEntry where
  optionText : Url
  qtys : List Url
  prices : List Url
deriving DecidableEq

/-- `", ".join(txt for (val, txt) in combo)` (ws_scrape line 382). -/
def wsOptionText (combo : List (Url × Url)) : Url :=
  joinSep (", ".toList) (combo.map Prod.snd)

/-- Entry construction of ws_scrape.process_product_page lines 378-389:
a tuple result gives (qtys, prices); otherwise qtys = [text], prices = []. -/
def mkWsEntry (combo : List (Url × Url)) (p : WsPricing) : WsEntry :=
  match p with
  | .table qtys prices => ⟨wsOptionText combo, qtys, prices⟩
  | .text t => ⟨wsOptionText combo, [t], []⟩

/-- The multi-dropdown combination loop of ws_scrape.process_product_page
(lines 356-390): a combination with any failed selection is skipped with
`continue` — NO entry is appended for it — and the loop moves on to the
next combination; nothing is raised.  pricingOf abstracts
process_pricing_data on the page state reached for a valid combination. -/
def wsProcessCombos (selOk : Nat → Url × Url → Bool)
    (pricingOf : List (Url × Url) → WsPricing) :
    List (List (Url × Url)) → List WsEntry
  | [] => []
  | combo :: rest =>
    if wsComboValid selOk 0 combo then
      mkWsEntry combo (pricingOf combo) :: wsProcessCombos selOk pricingOf rest
    else wsProcessCombos selOk pricingOf rest

/-- sd_scrape.read_scraped_urls (lines 220-227): the known-URL file as the
set of its nonempty lines; a missing file gives the empty set. -/
def read_scraped_urls (file : Option (List Url)) : List Url :=
  match file with
  | some lines => lines
  | none => []

/-- sd_scrape.update_scraped_urls (lines 229-233): opens the file in "w"
mode and writes exactly the given set, REPLACING the previous contents
(despite the docstring's promise of a union). -/
def update_scraped_urls (scraped_urls : List Url) : List Url :=
  scraped_urls

/-- The processed_urls set accumulated by sd_scrape.main: a URL (known or
newly crawled) is added only when its page load does not raise AND
parse_price_table returns complete pricing data (qty_headers,
retail_prices, your_prices all truthy; lines 280-289 and 319-328). -/
def sd_main_processed (loadOk hasPricing : Url → Bool)
    (alreadyScraped newUrls : List Url) : List Url :=
  (alreadyScraped.filter fun u => loadOk u && hasPricing u) ++
    (newUrls.filter fun u => loadOk u && hasPricing u)

/-- The known-URL file at the end of sd_scrape.main (line 352:
`update_scraped_urls(scraped_file, processed_urls)`). -/
def sd_main_final_file (loadOk hasPricing : Url → Bool)
    (alreadyScraped newUrls : List Url) : List Url :=
  update_scraped_urls (sd_main_processed loadOk hasPricing alreadyScraped newUrls)

/-- Base URL of the concrete crawl runs below. -/
def exBase : Url := "http://h/".toList

/-- A URL whose page load always raises, in the refetch run. -/
def exFail : Url := "http://h/u".toList

/-- Refetch world: the base page links to the same URL twice, and that
URL's load raises every time. -/
def exRefetchFetch : Url → Option Page :=
  fun u => if u = exBase then some ⟨false, [exFail, exFail]⟩ else none

/-- A URL the sd extension denylist excludes. -/
def exPdf : Url := "http://h/doc.pdf".toList

/-- The same URL with a query string appended. -/
def exPdfQ : Url := "http://h/doc.pdf?x=1".toList

/-- Bypass world: the base page links to the query-bearing variation of a
denylisted download URL. -/
def exBypassFetch : Url → Option Page :=
  fun u => if u = exBase then some ⟨false, [exPdfQ]⟩ else some ⟨false, []⟩

/-- A URL recorded in the known-URL file in the file-rewrite example. -/
def exKnownUrl : Url := "https://www.showdowndisplays.com/p/1".toList

/-- Attribute map whose distinct combinations render to colliding option
strings: ("x; B: y", "z") and ("x", "y; B: z") both render as
"A: x; B: y; B: z". -/
def exCollisionAttrs : List (Url × List Url) :=
  [("A".toList, ["x; B: y".toList, "x".toList]),
    ("B".toList, ["z".toList, "y; B: z".toList])]

/-- The spec's scenario attributes: Size:[S,M] and Color:[Red]. -/
def exScenarioAttrs : List (Url × List Url) :=
  [("Size".toList, ["S".toList, "M".toList]),
    ("Color".toList, ["Red".toList])]

/-- Two single-dropdown ws combinations: option S (value 1), option M
(value 2). -/
def exWsCombos : List (List (Url × Url)) :=
  [[("1".toList, "S".toList)], [("2".toList, "M".toList)]]

/-- Selection oracle that fails exactly on option M. -/
def exWsSelOk : Nat → Url × Url → Bool :=
  fun _ o => o.2 != "M".toList

/- ------------------------------------------------------------------
   Helper lemmas about splitBefore (Python split(c)[0])
   ------------------------------------------------------------------ -/

theorem splitBefore_cons (c a : Char) (t : List Char) :
    splitBefore c (a :: t) = if a = c then [] else a :: splitBefore c t := by
  simp only [splitBefore, List.takeWhile_cons]
  rcases eq_or_ne a c with h | h
  · simp [h]
  · simp [h]

theorem mem_splitBefore_ne {a c : Char} {s : List Char}
    (h : a ∈ splitBefore c s) : a ≠ c := by
  simp only [splitBefore] at h
  have := List.mem_takeWhile_imp h
  simpa using this

theorem splitBefore_not_mem (c : Char) (s : List Char) : c ∉ splitBefore c s :=
  fun h => mem_splitBefore_ne h rfl

theorem mem_of_mem_splitBefore {a c : Char} {s : List Char}
    (h : a ∈ splitBefore c s) : a ∈ s := by
  simp only [splitBefore] at h
  exact (List.takeWhile_sublist _).mem h

theorem splitBefore_eq_self {c : Char} {s : List Char} (h : c ∉ s) :
    splitBefore c s = s := by
  induction s with
  | nil => rfl
  | cons a t ih =>
    rw [splitBefore_cons]
    have ha : a ≠ c := fun e => h (by simp [e])
    rw [if_neg ha, ih (fun hm => h (List.mem_cons_of_mem a hm))]

theorem splitBefore_append_cons (c : Char) (u q : List Char) :
    splitBefore c (u ++ c :: q) = splitBefore c u := by
  induction u with
  | nil => simp [splitBefore_cons, splitBefore]
  | cons a t ih =>
    rw [List.cons_append, splitBefore_cons, splitBefore_cons]
    rcases eq_or_ne a c with h | h
    · simp [h]
    · rw [if_neg h, if_neg h, ih]

theorem sdNormalize_idem (u : Url) : sdNormalize (sdNormalize u) = sdNormalize u :=
  splitBefore_eq_self (splitBefore_not_mem '#' u)

theorem b2Normalize_no_hash (s : Url) : '#' ∉ b2Normalize s :=
  fun h => splitBefore_not_mem '#' s (mem_of_mem_splitBefore h)

theorem b2Normalize_no_query (s : Url) : '?' ∉ b2Normalize s :=
  splitBefore_not_mem '?' (splitBefore '#' s)

theorem b2Normalize_idem (u : Url) : b2Normalize (b2Normalize u) = b2Normalize u := by
  show splitBefore '?' (splitBefore '#' (b2Normalize u)) = b2Normalize u
  rw [splitBefore_eq_self (b2Normalize_no_hash u),
    splitBefore_eq_self (b2Normalize_no_query u)]

theorem sdNormalize_append_fragment (p f : List Char) :
    sdNormalize (p ++ '#' :: f) = sdNormalize p :=
  splitBefore_append_cons '#' p f

theorem b2Normalize_append_fragment (p f : List Char) :
    b2Normalize (p ++ '#' :: f) = b2Normalize p := by
  show splitBefore '?' (splitBefore '#' (p ++ '#' :: f)) = b2Normalize p
  rw [splitBefore_append_cons '#' p f]
  rfl

/-- C9: URL normalization is idempotent — normalize(normalize(u)) =
normalize(u) for every URL, for both the sd/ws normalizer (fragment strip)
and the b2 normalizer (fragment strip then query strip) — and any two
hrefs that differ only by their fragment normalize to the same canonical
URL (each also normalizes like the common fragment-free part). -/
theorem C9_normalize_idempotent :
    (∀ u : Url, sdNormalize (sdNormalize u) = sdNormalize u) ∧
    (∀ u : Url, b2Normalize (b2Normalize u) = b2Normalize u) ∧
    (∀ p f1 f2 : List Char,
      sdNormalize (p ++ '#' :: f1) = sdNormalize (p ++ '#' :: f2) ∧
      sdNormalize (p ++ '#' :: f1) = sdNormalize p) ∧
    (∀ p f1 f2 : List Char,
      b2Normalize (p ++ '#' :: f1) = b2Normalize (p ++ '#' :: f2) ∧
      b2Normalize (p ++ '#' :: f1) = b2Normalize p) := by
  refine ⟨sdNormalize_idem, b2Normalize_idem, ?_, ?_⟩
  · intro p f1 f2
    rw [sdNormalize_append_fragment, sdNormalize_append_fragment]
    exact ⟨rfl, rfl⟩
  · intro p f1 f2
    rw [b2Normalize_append_fragment, b2Normalize_append_fragment]
    exact ⟨rfl, rfl⟩

/- ------------------------------------------------------------------
   Fuel soundness for the sd crawl loop (concrete-run evaluation)
   ------------------------------------------------------------------ -/

theorem sdCrawlFuel_sound (fetch : Url → Option Page) (baseUrl : Url)
    (already : List Url) (maxPages : Nat) :
    ∀ fuel q visited products fetchLog r,
      sdCrawlFuel fetch baseUrl already maxPages fuel q visited products
        fetchLog = some r →
      sdCrawlLoop fetch baseUrl already maxPages q visited products fetchLog = r := by
  intro fuel
  induction fuel with
  | zero => intro q v p l r h; simp [sdCrawlFuel] at h
  | succ n ih =>
    intro q v p l r h
    match q with
    | [] =>
      simp [sdCrawlFuel] at h
      rw [sdCrawlLoop]
      cases h
      rfl
    | current :: rest =>
      rw [sdCrawlLoop]
      by_cases hlen : v.length < maxPages
      · simp only [sdCrawlFuel, if_pos hlen] at h
        simp only [dif_pos hlen]
        by_cases hmem : current ∈ v ∨ current ∈ already
        · simp only [if_pos hmem] at h
          simp only [dif_pos hmem]
          exact ih _ _ _ _ _ h
        · simp only [if_neg hmem] at h
          simp only [dif_neg hmem]
          by_cases hpat : sdPatternMatch current = true
          · simp only [if_pos hpat] at h
            simp only [dif_pos hpat]
            exact ih _ _ _ _ _ h
          · simp only [if_neg hpat] at h
            simp only [dif_neg hpat]
            by_cases hext : sdExtMatch current = true
            · simp only [if_pos hext] at h
              simp only [dif_pos hext]
              exact ih _ _ _ _ _ h
            · simp only [if_neg hext] at h
              simp only [dif_neg hext]
              cases hf : fetch current with
              | none => rw [hf] at h; simp only [hf]; exact ih _ _ _ _ _ h
              | some page => rw [hf] at h; simp only [hf]; exact ih _ _ _ _ _ h
      · simp only [sdCrawlFuel, if_neg hlen] at h
        simp only [dif_neg hlen]
        cases h
        rfl

/- ------------------------------------------------------------------
   Substring lemmas (Python `in` under suffix extension)
   ------------------------------------------------------------------ -/

theorem substringOf_nil_left (s : List Char) : substringOf [] s = true := by
  cases s with
  | nil => rfl
  | cons c rest => simp [substringOf, List.isPrefixOf]

theorem substringOf_append_right {p s : List Char} (t : List Char)
    (h : substringOf p s = true) : substringOf p (s ++ t) = true := by
  induction s with
  | nil =>
    have hp : p = [] := by
      cases p with
      | nil => rfl
      | cons a b => simp [substringOf] at h
    subst hp
    exact substringOf_nil_left t
  | cons c rest ih =>
    simp only [substringOf, Bool.or_eq_true] at h
    rw [List.cons_append]
    simp only [substringOf, Bool.or_eq_true]
    rcases h with h | h
    · left
      have hp : List.IsPrefix p (c :: rest) := List.isPrefixOf_iff_prefix.mp h
      have hp2 : List.IsPrefix p ((c :: rest) ++ t) :=
        hp.trans (List.prefix_append _ _)
      exact List.isPrefixOf_iff_prefix.mpr (by simpa using hp2)
    · right
      exact ih h

theorem sdPatternMatch_append (u q : Url) (h : sdPatternMatch u = true) :
    sdPatternMatch (u ++ q) = true := by
  simp only [sdPatternMatch, List.any_eq_true] at h ⊢
  rcases h with ⟨pat, hmem, hsub⟩
  exact ⟨pat, hmem, substringOf_append_right q hsub⟩

theorem b2DequeueNormalize_append_query (u q : Url) :
    b2DequeueNormalize (u ++ '?' :: q) = b2DequeueNormalize u :=
  splitBefore_append_cons '?' u q

/-- C6 (amended): exclusion is evaluated on the canonical form, but what
that protects against differs per crawler.  In b2_scrape the dequeue-side
exclusion decision is computed on the query-stripped URL, so it is
invariant under query-string variation; enqueue-side normalization strips
fragments in both crawlers, so fragment variation cannot bypass exclusion;
and sd_scrape's substring denylist is preserved under appending a query
suffix.  (What fails, per the counterexample, is sd_scrape's
file-extension denylist under query variation: sd's canonical form keeps
the query string.) -/
theorem C6_exclusion_on_canonical_form :
    (∀ visited already u q,
      b2DequeueExcluded visited already (u ++ '?' :: q) =
        b2DequeueExcluded visited already u) ∧
    (∀ u f, b2Normalize (u ++ '#' :: f) = b2Normalize u) ∧
    (∀ u f, sdNormalize (u ++ '#' :: f) = sdNormalize u) ∧
    (∀ u q, sdPatternMatch u = true → sdPatternMatch (u ++ q) = true) := by
  refine ⟨?_, b2Normalize_append_fragment, sdNormalize_append_fragment,
    sdPatternMatch_append⟩
  intro visited already u q
  simp only [b2DequeueExcluded, b2DequeueNormalize_append_query]

/-- C6 witness: the b2 exclusion decision on a concrete query variation,
and a concrete excluded sd URL still excluded after appending a query. -/
theorem C6_exclusion_witness :
    b2DequeueExcluded [] [] (("http://h/a".toList) ++ '?' :: ("x=1".toList)) =
      b2DequeueExcluded [] [] ("http://h/a".toList) ∧
    sdPatternMatch (("https://www.showdowndisplays.com/Cart".toList) ++
      ("?x=1".toList)) = true :=
  ⟨C6_exclusion_on_canonical_form.1 [] [] _ _,
   C6_exclusion_on_canonical_form.2.2.2 _ _ (by decide)⟩

/-- C6 counterexample: the query-string variation of the denylisted
`http://h/doc.pdf` is enqueued and actually fetched by sd_scrape's crawl
(it appears in the fetch log), because sd's canonical form — which keeps
the query string — neither ends in `.pdf` nor matches a pattern; the
query-free form is extension-denylisted.  So a query-string variation of
an excluded URL bypasses exclusion, refuting the claim. -/
theorem C6_counterexample_sd_ext_bypass :
    sdExtMatch exPdf = true ∧
    sdNormalize exPdfQ = exPdfQ ∧
    exPdfQ ∈ (sd_crawl_site exBypassFetch exBase [] 5).fetchLog := by
  refine ⟨by decide, by decide, ?_⟩
  have h : sdCrawlLoop exBypassFetch exBase [] 5 [exBase] [] [] [] =
      ⟨[exPdfQ, exBase], [], [], [exBase, exPdfQ]⟩ :=
    sdCrawlFuel_sound _ _ _ _ 10 _ _ _ _ _ (by decide)
  show exPdfQ ∈ (sdCrawlLoop exBypassFetch exBase [] 5 [exBase] [] [] []).fetchLog
  rw [h]
  decide

/-- C1: evaluation at the failing input.  With the known-URL file holding
one URL whose price table is not found this run, sd_scrape.main's
end-of-run `update_scraped_urls` rewrites the file to the empty set — the
recorded URL is removed, contradicting append-only durability (and
update_scraped_urls' own docstring, which promises the union of previous
and new URLs). -/
theorem C1_file_rewrite_drops_url :
    exKnownUrl ∈ read_scraped_urls (some [exKnownUrl]) ∧
    sd_main_final_file (fun _ => true) (fun _ => false) [exKnownUrl] [] = [] := by
  exact ⟨by decide, by decide⟩

/-- C10: a successfully parsed price of exactly 0 (subtotal text "$0.00")
produces the empty price cell through `price or ""`, indistinguishable
from an unparsable/absent price. -/
theorem C10_zero_price_indistinguishable :
    parse_price_table ("$0.00".toList) = Except.ok (some 0) ∧
    priceCell (some 0) = none ∧ priceCell none = none := by
  refine ⟨?_, by simp [priceCell], rfl⟩
  rw [parse_price_table, if_pos (show '$' ∈ ("$0.00".toList) by decide)]
  rw [show stripNonNumDot ("$0.00".toList) = "0.00".toList from by decide]
  rw [show ("0.00".toList).isEmpty = false from by decide]
  simp only [Bool.false_eq_true, if_false]
  rw [pyFloatNum, if_pos ⟨by decide, by decide⟩]
  rw [show ("0.00".toList).takeWhile (fun c => c != '.') = "0".toList from by decide]
  rw [show (("0.00".toList).dropWhile (fun c => c != '.')).drop 1 = "00".toList from by decide]
  rw [show digitsVal ("0".toList) = 0 from by decide]
  rw [show digitsVal ("00".toList) = 0 from by decide]
  rw [show ("00".toList).length = 2 from by decide]
  have hq : ((0 : Nat) : ℚ) + ((0 : Nat) : ℚ) / (10 : ℚ) ^ 2 = 0 := by
    push_cast
    norm_num
  exact congrArg (fun q => Except.ok (some q)) hq

/-- C4: evaluation at the divergence.  "$1,234.50" parses to the scalar
1234.50 (currency symbol and thousands separator tolerated) and "TBD"
yields absent without an exception, as the claim says; but the unparsable
price text "$1.2.3" makes float() raise an uncaught ValueError instead of
yielding absent, refuting the universal no-crash claim. -/
theorem C4_price_parse_eval :
    parse_price_table ("$1,234.50".toList) = Except.ok (some ((2469 : ℚ) / 2)) ∧
    parse_price_table ("TBD".toList) = Except.ok none ∧
    parse_price_table ("$1.2.3".toList) = Except.error () := by
  refine ⟨?_, ?_, ?_⟩
  · rw [parse_price_table, if_pos (show '$' ∈ ("$1,234.50".toList) by decide)]
    rw [show stripNonNumDot ("$1,234.50".toList) = "1234.50".toList from by decide]
    rw [show ("1234.50".toList).isEmpty = false from by decide]
    simp only [Bool.false_eq_true, if_false]
    rw [pyFloatNum, if_pos ⟨by decide, by decide⟩]
    rw [show ("1234.50".toList).takeWhile (fun c => c != '.') = "1234".toList from by decide]
    rw [show (("1234.50".toList).dropWhile (fun c => c != '.')).drop 1 = "50".toList
      from by decide]
    rw [show digitsVal ("1234".toList) = 1234 from by decide]
    rw [show digitsVal ("50".toList) = 50 from by decide]
    rw [show ("50".toList).length = 2 from by decide]
    have hq : ((1234 : Nat) : ℚ) + ((50 : Nat) : ℚ) / (10 : ℚ) ^ 2 = (2469 : ℚ) / 2 := by
      push_cast
      norm_num
    exact congrArg (fun q => Except.ok (some q)) hq
  · rw [parse_price_table, if_neg (show ¬ ('$' ∈ ("TBD".toList)) by decide)]
  · rw [parse_price_table, if_pos (show '$' ∈ ("$1.2.3".toList) by decide)]
    rw [show stripNonNumDot ("$1.2.3".toList) = "1.2.3".toList from by decide]
    rw [show ("1.2.3".toList).isEmpty = false from by decide]
    simp only [Bool.false_eq_true, if_false]
    rw [pyFloatNum, if_neg (show ¬ (("1.2.3".toList).any Char.isDigit = true ∧
      ("1.2.3".toList).count '.' ≤ 1) by decide)]

/- ------------------------------------------------------------------
   Crawl termination & page-ceiling lemmas (C8)
   ------------------------------------------------------------------ -/

theorem sdCrawlLoop_bounded (fetch : Url → Option Page) (baseUrl : Url)
    (already : List Url) (maxPages : Nat) :
    ∀ q visited products fetchLog, visited.length ≤ maxPages →
      (sdCrawlLoop fetch baseUrl already maxPages q visited products
        fetchLog).visited.length ≤ maxPages ∧
      ((sdCrawlLoop fetch baseUrl already maxPages q visited products
          fetchLog).queue = [] ∨
        (sdCrawlLoop fetch baseUrl already maxPages q visited products
          fetchLog).visited.length = maxPages) := by
  intro q visited products fetchLog
  induction q, visited, products, fetchLog
    using sdCrawlLoop.induct fetch baseUrl already maxPages with
  | case1 visited products log =>
    intro h
    rw [sdCrawlLoop]
    exact ⟨h, Or.inl rfl⟩
  | case2 current rest visited products log hlen hmem ih =>
    intro h
    rw [sdCrawlLoop]
    simp only [dif_pos hlen, dif_pos hmem]
    exact ih h
  | case3 current rest visited products log hlen hmem hpat ih =>
    intro h
    rw [sdCrawlLoop]
    simp only [dif_pos hlen, dif_neg hmem, dif_pos hpat]
    exact ih (by simp only [List.length_cons]; omega)
  | case4 current rest visited products log hlen hmem hpat hext ih =>
    intro h
    rw [sdCrawlLoop]
    simp only [dif_pos hlen, dif_neg hmem, dif_neg hpat, dif_pos hext]
    exact ih (by simp only [List.length_cons]; omega)
  | case5 current rest visited products log hlen hmem hpat hext hf ih =>
    intro h
    rw [sdCrawlLoop]
    simp only [dif_pos hlen, dif_neg hmem, dif_neg hpat, dif_neg hext, hf]
    exact ih h
  | case6 current rest visited products log hlen hmem hpat hext page hf ih =>
    intro h
    rw [sdCrawlLoop]
    simp only [dif_pos hlen, dif_neg hmem, dif_neg hpat, dif_neg hext, hf]
    exact ih (by simp only [List.length_cons]; omega)
  | case7 current rest visited products log hlen =>
    intro h
    rw [sdCrawlLoop]
    simp only [dif_neg hlen]
    exact ⟨h, Or.inr (by omega)⟩

theorem wsCrawlLoop_bounded (fetch : Url → Option Page) (baseUrl : Url)
    (skipUrls : List Url) (maxPages : Nat) :
    ∀ q visited products fetchLog, visited.length ≤ maxPages →
      (wsCrawlLoop fetch baseUrl skipUrls maxPages q visited products
        fetchLog).visited.length ≤ maxPages ∧
      ((wsCrawlLoop fetch baseUrl skipUrls maxPages q visited products
          fetchLog).queue = [] ∨
        (wsCrawlLoop fetch baseUrl skipUrls maxPages q visited products
          fetchLog).visited.length = maxPages) := by
  intro q visited products fetchLog
  induction q, visited, products, fetchLog
    using wsCrawlLoop.induct fetch baseUrl skipUrls maxPages with
  | case1 visited products log =>
    intro h
    rw [wsCrawlLoop]
    exact ⟨h, Or.inl rfl⟩
  | case2 current rest visited products log hlen hmem ih =>
    intro h
    rw [wsCrawlLoop]
    simp only [dif_pos hlen, dif_pos hmem]
    exact ih h
  | case3 current rest visited products log hlen hmem hskip ih =>
    intro h
    rw [wsCrawlLoop]
    simp only [dif_pos hlen, dif_neg hmem, dif_pos hskip]
    exact ih (by simp only [List.length_cons]; omega)
  | case4 current rest visited products log hlen hmem hskip hf ih =>
    intro h
    rw [wsCrawlLoop]
    simp only [dif_pos hlen, dif_neg hmem, dif_neg hskip, hf]
    exact ih h
  | case5 current rest visited products log hlen hmem hskip page hf hcond ih =>
    intro h
    rw [wsCrawlLoop]
    simp only [dif_pos hlen, dif_neg hmem, dif_neg hskip, hf, if_pos hcond]
    exact ih (by simp only [List.length_cons]; omega)
  | case6 current rest visited products log hlen hmem hskip page hf hcond ih =>
    intro h
    rw [wsCrawlLoop]
    simp only [dif_pos hlen, dif_neg hmem, dif_neg hskip, hf, if_neg hcond]
    exact ih (by simp only [List.length_cons]; omega)
  | case7 current rest visited products log hlen =>
    intro h
    rw [wsCrawlLoop]
    simp only [dif_neg hlen]
    exact ⟨h, Or.inr (by omega)⟩

/-- C8: for every world (page classifier and link structure, including
cyclic graphs) and every page ceiling, the sd and ws crawls terminate —
both loops are total functions, defined by well-founded recursion on
(maxPages - visited, queue length) — the crawl stops exactly at an empty
frontier queue or at the ceiling, and the visited count never exceeds
max_pages. -/
theorem C8_crawl_terminates_bounded :
    (∀ (fetch : Url → Option Page) (baseUrl : Url) (already : List Url)
        (maxPages : Nat),
      (sd_crawl_site fetch baseUrl already maxPages).visited.length ≤ maxPages ∧
      ((sd_crawl_site fetch baseUrl already maxPages).queue = [] ∨
        (sd_crawl_site fetch baseUrl already maxPages).visited.length =
          maxPages)) ∧
    (∀ (fetch : Url → Option Page) (baseUrl : Url) (skipUrls : List Url)
        (maxPages : Nat),
      (ws_crawl_site fetch baseUrl skipUrls maxPages).visited.length ≤ maxPages ∧
      ((ws_crawl_site fetch baseUrl skipUrls maxPages).queue = [] ∨
        (ws_crawl_site fetch baseUrl skipUrls maxPages).visited.length =
          maxPages)) := by
  constructor
  · intro fetch baseUrl already maxPages
    exact sdCrawlLoop_bounded fetch baseUrl already maxPages [baseUrl] [] [] []
      (by simp)
  · intro fetch baseUrl skipUrls maxPages
    exact wsCrawlLoop_bounded fetch baseUrl skipUrls maxPages [baseUrl] [] [] []
      (by simp)

/- ------------------------------------------------------------------
   Fetch-once invariants (C5)
   ------------------------------------------------------------------ -/

theorem nodup_snoc {l : List Url} {a : Url} (h : l.Nodup) (ha : a ∉ l) :
    (l ++ [a]).Nodup := by
  simp [List.nodup_append, h, ha]

theorem mem_addSet_of_mem {u v : Url} {s : List Url} (h : u ∈ s) :
    u ∈ addSet v s := by
  unfold addSet
  split
  · exact h
  · exact List.mem_cons_of_mem _ h

theorem sdCrawlLoop_log_not_already (fetch : Url → Option Page) (baseUrl : Url)
    (already : List Url) (maxPages : Nat) :
    ∀ q visited products fetchLog,
      (∀ u ∈ fetchLog, u ∉ already) →
      ∀ u ∈ (sdCrawlLoop fetch baseUrl already maxPages q visited products
        fetchLog).fetchLog, u ∉ already := by
  intro q visited products fetchLog
  induction q, visited, products, fetchLog
    using sdCrawlLoop.induct fetch baseUrl already maxPages with
  | case1 visited products log =>
    intro h
    rw [sdCrawlLoop]
    exact h
  | case2 current rest visited products log hlen hmem ih =>
    intro h
    rw [sdCrawlLoop]
    simp only [dif_pos hlen, dif_pos hmem]
    exact ih h
  | case3 current rest visited products log hlen hmem hpat ih =>
    intro h
    rw [sdCrawlLoop]
    simp only [dif_pos hlen, dif_neg hmem, dif_pos hpat]
    exact ih h
  | case4 current rest visited products log hlen hmem hpat hext ih =>
    intro h
    rw [sdCrawlLoop]
    simp only [dif_pos hlen, dif_neg hmem, dif_neg hpat, dif_pos hext]
    exact ih h
  | case5 current rest visited products log hlen hmem hpat hext hf ih =>
    intro h
    rw [sdCrawlLoop]
    simp only [dif_pos hlen, dif_neg hmem, dif_neg hpat, dif_neg hext, hf]
    refine ih ?_
    intro u hu
    rcases List.mem_append.mp hu with hu | hu
    · exact h u hu
    · simp only [List.mem_singleton] at hu
      subst hu
      exact fun hc => hmem (Or.inr hc)
  | case6 current rest visited products log hlen hmem hpat hext page hf ih =>
    intro h
    rw [sdCrawlLoop]
    simp only [dif_pos hlen, dif_neg hmem, dif_neg hpat, dif_neg hext, hf]
    refine ih ?_
    intro u hu
    rcases List.mem_append.mp hu with hu | hu
    · exact h u hu
    · simp only [List.mem_singleton] at hu
      subst hu
      exact fun hc => hmem (Or.inr hc)
  | case7 current rest visited products log hlen =>
    intro h
    rw [sdCrawlLoop]
    simp only [dif_neg hlen]
    exact h

theorem sdCrawlLoop_log_nodup (fetch : Url → Option Page) (baseUrl : Url)
    (already : List Url) (maxPages : Nat)
    (hfetch : ∀ u, (fetch u).isSome = true) :
    ∀ q visited products fetchLog,
      fetchLog.Nodup → (∀ u ∈ fetchLog, u ∈ visited) →
      ((sdCrawlLoop fetch baseUrl already maxPages q visited products
          fetchLog).fetchLog.Nodup ∧
        ∀ u ∈ (sdCrawlLoop fetch baseUrl already maxPages q visited products
          fetchLog).fetchLog,
          u ∈ (sdCrawlLoop fetch baseUrl already maxPages q visited products
            fetchLog).visited) := by
  intro q visited products fetchLog
  induction q, visited, products, fetchLog
    using sdCrawlLoop.induct fetch baseUrl already maxPages with
  | case1 visited products log =>
    intro hn hv
    rw [sdCrawlLoop]
    exact ⟨hn, hv⟩
  | case2 current rest visited products log hlen hmem ih =>
    intro hn hv
    rw [sdCrawlLoop]
    simp only [dif_pos hlen, dif_pos hmem]
    exact ih hn hv
  | case3 current rest visited products log hlen hmem hpat ih =>
    intro hn hv
    rw [sdCrawlLoop]
    simp only [dif_pos hlen, dif_neg hmem, dif_pos hpat]
    exact ih hn (fun u hu => List.mem_cons_of_mem _ (hv u hu))
  | case4 current rest visited products log hlen hmem hpat hext ih =>
    intro hn hv
    rw [sdCrawlLoop]
    simp only [dif_pos hlen, dif_neg hmem, dif_neg hpat, dif_pos hext]
    exact ih hn (fun u hu => List.mem_cons_of_mem _ (hv u hu))
  | case5 current rest visited products log hlen hmem hpat hext hf ih =>
    intro hn hv
    exact absurd (hfetch current) (by rw [hf]; simp)
  | case6 current rest visited products log hlen hmem hpat hext page hf ih =>
    intro hn hv
    rw [sdCrawlLoop]
    simp only [dif_pos hlen, dif_neg hmem, dif_neg hpat, dif_neg hext, hf]
    refine ih ?_ ?_
    · refine nodup_snoc hn ?_
      exact fun hc => hmem (Or.inl (hv current hc))
    · intro u hu
      rcases List.mem_append.mp hu with hu | hu
      · exact List.mem_cons_of_mem _ (hv u hu)
      · simp only [List.mem_singleton] at hu
        subst hu
        exact List.mem_cons_self _ _
  | case7 current rest visited products log hlen =>
    intro hn hv
    rw [sdCrawlLoop]
    simp only [dif_neg hlen]
    exact ⟨hn, hv⟩

theorem b2CrawlLoop_log_inv (ok : Url → Nat → Bool) (pageOf : Url → Page)
    (baseUrl : Url) (already : List Url) (maxPages : Nat) :
    ∀ q visited products fetchLog,
      fetchLog.Nodup → (∀ u ∈ fetchLog, u ∈ visited) →
      (∀ u ∈ fetchLog, u ∉ already) →
      ((b2CrawlLoop ok pageOf baseUrl already maxPages q visited products
          fetchLog).fetchLog.Nodup ∧
        ∀ u ∈ (b2CrawlLoop ok pageOf baseUrl already maxPages q visited products
          fetchLog).fetchLog, u ∉ already) := by
  intro q visited products fetchLog
  induction q, visited, products, fetchLog
    using b2CrawlLoop.induct ok pageOf baseUrl already maxPages with
  | case1 visited products log =>
    intro hn hv ha
    rw [b2CrawlLoop]
    exact ⟨hn, ha⟩
  | case2 current rest visited products log hlen hskip ih =>
    intro hn hv ha
    rw [b2CrawlLoop]
    simp only [dif_pos hlen, dif_pos hskip]
    exact ih hn (fun u hu => mem_addSet_of_mem (hv u hu)) ha
  | case3 current rest visited products log hlen hskip hload ih =>
    intro hn hv ha
    rw [b2CrawlLoop]
    simp only [dif_pos hlen, dif_neg hskip, dif_pos hload]
    simp only [b2DequeueExcluded, Bool.or_eq_true, decide_eq_true_eq] at hskip
    push_neg at hskip
    obtain ⟨⟨⟨hnv, hna⟩, _⟩, _⟩ := hskip
    refine ih ?_ ?_ ?_
    · exact nodup_snoc hn (fun hc => hnv (hv _ hc))
    · intro u hu
      rcases List.mem_append.mp hu with hu | hu
      · exact List.mem_cons_of_mem _ (hv u hu)
      · simp only [List.mem_singleton] at hu
        subst hu
        exact List.mem_cons_self _ _
    · intro u hu
      rcases List.mem_append.mp hu with hu | hu
      · exact ha u hu
      · simp only [List.mem_singleton] at hu
        subst hu
        exact hna
  | case4 current rest visited products log hlen hskip hload ih =>
    intro hn hv ha
    rw [b2CrawlLoop]
    simp only [dif_pos hlen, dif_neg hskip, dif_neg hload]
    simp only [b2DequeueExcluded, Bool.or_eq_true, decide_eq_true_eq] at hskip
    push_neg at hskip
    obtain ⟨⟨⟨hnv, hna⟩, _⟩, _⟩ := hskip
    refine ih ?_ ?_ ?_
    · exact nodup_snoc hn (fun hc => hnv (hv _ hc))
    · intro u hu
      rcases List.mem_append.mp hu with hu | hu
      · exact List.mem_cons_of_mem _ (hv u hu)
      · simp only [List.mem_singleton] at hu
        subst hu
        exact List.mem_cons_self _ _
    · intro u hu
      rcases List.mem_append.mp hu with hu | hu
      · exact ha u hu
      · simp only [List.mem_singleton] at hu
        subst hu
        exact hna
  | case5 current rest visited products log hlen =>
    intro hn hv ha
    rw [b2CrawlLoop]
    simp only [dif_neg hlen]
    exact ⟨hn, ha⟩

/-- C5 (amended): no URL in the provided already-known set is ever fetched,
and a URL marked visited is never fetched again.  In b2_scrape this makes
every fetched URL appear in the fetch log exactly once (log nodup) EVEN
when loads fail, because a load failure still marks the URL visited.  In
sd_scrape (and ws_scrape) the exactly-once guarantee holds provided no
page load throws: a load exception skips the visited-marking, so — per the
counterexample — a twice-enqueued URL can be fetched again. -/
theorem C5_fetched_once :
    (∀ (fetch : Url → Option Page) (baseUrl : Url) (already : List Url)
        (maxPages : Nat),
      ∀ u ∈ (sd_crawl_site fetch baseUrl already maxPages).fetchLog,
        u ∉ already) ∧
    (∀ (fetch : Url → Option Page) (baseUrl : Url) (already : List Url)
        (maxPages : Nat), (∀ u, (fetch u).isSome = true) →
      (sd_crawl_site fetch baseUrl already maxPages).fetchLog.Nodup) ∧
    (∀ (ok : Url → Nat → Bool) (pageOf : Url → Page) (baseUrl : Url)
        (already : List Url) (maxPages : Nat),
      (b2_crawl_site ok pageOf baseUrl already maxPages).fetchLog.Nodup ∧
      ∀ u ∈ (b2_crawl_site ok pageOf baseUrl already maxPages).fetchLog,
        u ∉ already) := by
  refine ⟨?_, ?_, ?_⟩
  · intro fetch baseUrl already maxPages
    exact sdCrawlLoop_log_not_already fetch baseUrl already maxPages
      [baseUrl] [] [] [] (by simp)
  · intro fetch baseUrl already maxPages hfetch
    exact (sdCrawlLoop_log_nodup fetch baseUrl already maxPages hfetch
      [baseUrl] [] [] [] (by simp) (by simp)).1
  · intro ok pageOf baseUrl already maxPages
    exact b2CrawlLoop_log_inv ok pageOf baseUrl already maxPages
      [baseUrl] [] [] [] (by simp) (by simp) (by simp)

/-- C5 witness: the amended theorem applied to a concrete world whose
fetches all succeed, and to a concrete b2 run. -/
theorem C5_fetched_once_witness :
    (∀ u, (exBypassFetch u).isSome = true) ∧
    (sd_crawl_site exBypassFetch exBase [] 5).fetchLog.Nodup ∧
    (b2_crawl_site (fun _ _ => false) (fun _ => ⟨false, []⟩) exBase []
      5).fetchLog.Nodup := by
  have hall : ∀ u, (exBypassFetch u).isSome = true := by
    intro u
    simp only [exBypassFetch]
    split
    · rfl
    · rfl
  refine ⟨hall, ?_, ?_⟩
  · exact C5_fetched_once.2.1 exBypassFetch exBase [] 5 hall
  · exact (C5_fetched_once.2.2 (fun _ _ => false) (fun _ => ⟨false, []⟩)
      exBase [] 5).1

/-- C5 counterexample: in sd_scrape's crawl, a URL enqueued twice by the
base page whose load raises each time is fetch-attempted twice — its load
failure does not mark it visited, so the second queue entry passes the
visited check and the URL appears in the fetch log twice, not once. -/
theorem C5_counterexample_refetched :
    (sd_crawl_site exRefetchFetch exBase [] 5).fetchLog.count exFail = 2 := by
  have h : sdCrawlLoop exRefetchFetch exBase [] 5 [exBase] [] [] [] =
      ⟨[exBase], [], [], [exBase, exFail, exFail]⟩ :=
    sdCrawlFuel_sound _ _ _ _ 10 _ _ _ _ _ (by decide)
  show (sdCrawlLoop exRefetchFetch exBase [] 5
    [exBase] [] [] []).fetchLog.count exFail = 2
  rw [h]
  decide

/- ------------------------------------------------------------------
   Retry policy and run abort (C2)
   ------------------------------------------------------------------ -/

theorem loadRetryAux_false_iff (ok : Nat → Bool) :
    ∀ remaining attempt, attempt + remaining = MAX_RETRIES + 1 → 1 ≤ attempt →
      (loadRetryAux ok remaining attempt = false ↔
        ∀ i, attempt ≤ i → i ≤ MAX_RETRIES → ok i = false) := by
  intro remaining
  induction remaining with
  | zero =>
    intro attempt hsum h1
    constructor
    · intro _ i hi1 hi2
      exact False.elim (by simp only [MAX_RETRIES] at hsum hi2; omega)
    · intro _
      rfl
  | succ n ih =>
    intro attempt hsum h1
    rw [loadRetryAux]
    by_cases hok : ok attempt = true
    · rw [if_pos hok]
      constructor
      · intro hc
        exact absurd hc (by simp)
      · intro hall
        exact absurd (hall attempt le_rfl (by simp only [MAX_RETRIES] at hsum ⊢; omega))
          (by simp [hok])
    · rw [if_neg hok]
      by_cases hlt : attempt < MAX_RETRIES
      · rw [if_pos hlt]
        rw [ih (attempt + 1) (by omega) (by omega)]
        constructor
        · intro hall i hi1 hi2
          rcases Nat.eq_or_lt_of_le hi1 with he | hlt2
          · rw [← he]
            exact Bool.eq_false_iff.mpr hok
          · exact hall i (by omega) hi2
        · intro hall i hi1 hi2
          exact hall i (by omega) hi2
      · rw [if_neg hlt]
        constructor
        · intro _ i hi1 hi2
          have hie : i = attempt := by omega
          rw [hie]
          exact Bool.eq_false_iff.mpr hok
        · intro _
          rfl

theorem load_page_with_retry_false_iff (ok : Nat → Bool) :
    load_page_with_retry ok = false ↔
      ∀ i, 1 ≤ i → i ≤ MAX_RETRIES → ok i = false := by
  have h := loadRetryAux_false_iff ok MAX_RETRIES 1 (by omega) le_rfl
  rw [load_page_with_retry, h]

theorem b2CrawlLoop_log_visited (ok : Url → Nat → Bool) (pageOf : Url → Page)
    (baseUrl : Url) (already : List Url) (maxPages : Nat) :
    ∀ q visited products fetchLog,
      (∀ u ∈ fetchLog, u ∈ visited) →
      ∀ u ∈ (b2CrawlLoop ok pageOf baseUrl already maxPages q visited products
        fetchLog).fetchLog,
        u ∈ (b2CrawlLoop ok pageOf baseUrl already maxPages q visited products
          fetchLog).visited := by
  intro q visited products fetchLog
  induction q, visited, products, fetchLog
    using b2CrawlLoop.induct ok pageOf baseUrl already maxPages with
  | case1 visited products log =>
    intro hv
    rw [b2CrawlLoop]
    exact hv
  | case2 current rest visited products log hlen hskip ih =>
    intro hv
    rw [b2CrawlLoop]
    simp only [dif_pos hlen, dif_pos hskip]
    exact ih (fun u hu => mem_addSet_of_mem (hv u hu))
  | case3 current rest visited products log hlen hskip hload ih =>
    intro hv
    rw [b2CrawlLoop]
    simp only [dif_pos hlen, dif_neg hskip, dif_pos hload]
    refine ih ?_
    intro u hu
    rcases List.mem_append.mp hu with hu | hu
    · exact List.mem_cons_of_mem _ (hv u hu)
    · simp only [List.mem_singleton] at hu
      rw [hu]
      exact List.mem_cons_self _ _
  | case4 current rest visited products log hlen hskip hload ih =>
    intro hv
    rw [b2CrawlLoop]
    simp only [dif_pos hlen, dif_neg hskip, dif_neg hload]
    refine ih ?_
    intro u hu
    rcases List.mem_append.mp hu with hu | hu
    · exact List.mem_cons_of_mem _ (hv u hu)
    · simp only [List.mem_singleton] at hu
      rw [hu]
      exact List.mem_cons_self _ _
  | case5 current rest visited products log hlen =>
    intro hv
    rw [b2CrawlLoop]
    simp only [dif_neg hlen]
    exact hv

theorem b2ProcessUrls_abort {α : Type} (ok : Url → Nat → Bool)
    (handle : Url → List α) (us : List Url) (u : Url) (vs : List Url)
    (hus : ∀ w ∈ us, load_page_with_retry (ok w) = true)
    (hu : load_page_with_retry (ok u) = false) :
    b2ProcessUrls ok handle (us ++ u :: vs) = Except.error () := by
  induction us with
  | nil =>
    simp only [List.nil_append, b2ProcessUrls]
    rw [if_neg (by simp [hu])]
  | cons w ws ih =>
    simp only [List.cons_append, b2ProcessUrls]
    rw [if_pos (hus w (by simp))]
    simp only [List.append_eq]
    rw [ih (fun x hx => hus x (by simp [hx]))]

/-- C2 (amended): a page load makes up to 5 attempts with a fixed delay, and
the budget is exhausted exactly when all 5 attempts fail.  Inside
crawl_site the resulting SystemExit is caught: the URL is marked visited
(failed and skipped — every fetch-attempted URL ends up in the final
visited set) and the crawl, a total function, continues.  But in main's
per-product loops load_page_with_retry is called outside any try/except,
so ONE url exhausting the budget aborts the entire run (the
counterexample); the claim's "never aborts the run" holds only for the
crawl phase. -/
theorem C2_retry_policy :
    (∀ ok : Nat → Bool, load_page_with_retry ok = false ↔
      ∀ i, 1 ≤ i → i ≤ MAX_RETRIES → ok i = false) ∧
    (∀ (ok : Url → Nat → Bool) (pageOf : Url → Page) (baseUrl : Url)
        (already : List Url) (maxPages : Nat),
      ∀ u ∈ (b2_crawl_site ok pageOf baseUrl already maxPages).fetchLog,
        u ∈ (b2_crawl_site ok pageOf baseUrl already maxPages).visited) ∧
    (∀ (ok : Url → Nat → Bool) (handle : Url → List B2Row) (us : List Url)
        (u : Url) (vs : List Url),
      (∀ w ∈ us, load_page_with_retry (ok w) = true) →
      load_page_with_retry (ok u) = false →
      b2ProcessUrls ok handle (us ++ u :: vs) = Except.error ()) := by
  refine ⟨load_page_with_retry_false_iff, ?_, ?_⟩
  · intro ok pageOf baseUrl already maxPages
    exact b2CrawlLoop_log_visited ok pageOf baseUrl already maxPages
      [baseUrl] [] [] [] (by simp)
  · intro ok handle us u vs hus hu
    exact b2ProcessUrls_abort ok handle us u vs hus hu

/-- C2 witness: the retry characterization and the abort conclusion applied
at a concrete always-failing load. -/
theorem C2_retry_witness :
    load_page_with_retry (fun _ => false) = false ∧
    b2ProcessUrls (fun _ _ => false) (fun _ => ([] : List B2Row))
      ([] ++ exFail :: []) = Except.error () := by
  constructor
  · exact (C2_retry_policy.1 (fun _ => false)).mpr (fun i h1 h2 => rfl)
  · exact C2_retry_policy.2.2 (fun _ _ => false) (fun _ => []) [] exFail []
      (by simp) (by decide)

/-- C2 counterexample: a run of b2_scrape.main's product loop over a single
URL whose page load fails on all 5 attempts does NOT continue — it
evaluates to the aborted run (SystemExit escapes the loop), refuting
"exhausting the load-retry budget for one URL never aborts the entire
run". -/
theorem C2_counterexample_run_abort :
    load_page_with_retry (fun _ => false) = false ∧
    b2ProcessUrls (fun _ _ => false) (fun _ => ([] : List B2Row)) [exFail] =
      Except.error () := by
  constructor
  · decide
  · rfl

/- ------------------------------------------------------------------
   Combination counting (C3) and selection failures (C7)
   ------------------------------------------------------------------ -/

theorem flatMap_cons_length {α : Type} :
    ∀ (l : List α) (P : List (List α)),
      (l.flatMap (fun a => P.map (fun t => a :: t))).length =
        l.length * P.length := by
  intro l P
  induction l with
  | nil => simp
  | cons a l2 ih =>
    simp only [List.flatMap_cons, List.length_append, List.length_map, ih,
      List.length_cons]
    ring

theorem pyProduct_length {α : Type} :
    ∀ ls : List (List α), (pyProduct ls).length = (ls.map List.length).prod := by
  intro ls
  induction ls with
  | nil => rfl
  | cons l ls ih =>
    simp only [pyProduct, List.map_cons, List.prod_cons]
    rw [flatMap_cons_length, ih]

theorem seenFilter_length_le : ∀ (seen l : List Url),
    (seenFilter seen l).length ≤ l.length := by
  intro seen l
  induction l generalizing seen with
  | nil => simp [seenFilter]
  | cons s rest ih =>
    rw [seenFilter]
    split
    · exact Nat.le_succ_of_le (ih seen)
    · simpa using ih (s :: seen)

theorem seenFilter_eq_self : ∀ (seen l : List Url), l.Nodup →
    (∀ x ∈ l, x ∉ seen) → seenFilter seen l = l := by
  intro seen l
  induction l generalizing seen with
  | nil => intro _ _; rfl
  | cons s rest ih =>
    intro hnd hns
    rw [seenFilter, if_neg (hns s (by simp))]
    congr 1
    refine ih (s :: seen) (List.Nodup.of_cons hnd) ?_
    intro x hx
    simp only [List.mem_cons]
    push_neg
    constructor
    · exact fun he => (List.nodup_cons.mp hnd).1 (he ▸ hx)
    · exact hns x (List.mem_cons_of_mem s hx)

theorem b2ComboLoop_opts (blocks : List B2AttrBlock)
    (priceOf : DomState → Option ℚ) (names : List Url) :
    ∀ (combos : List (List Url)) (seen : List Url) (st : DomState),
      (b2ComboLoop blocks priceOf names combos seen st).map B2Row.opts =
        seenFilter seen (combos.map (optStr names)) := by
  intro combos
  induction combos with
  | nil => intro seen st; rfl
  | cons combo rest ih =>
    intro seen st
    rw [b2ComboLoop, List.map_cons, seenFilter]
    split
    · exact ih seen st
    · rw [List.map_cons, ih]

/-- C3 (amended): the number of generated combinations equals the product of
the option-list sizes (itertools.product), and a page with no attribute
controls yields exactly one row; the number of rows actually recorded is
the number of DISTINCT rendered option strings — at most the product, with
equality whenever distinct combinations render to distinct "Name: value"
strings (the counterexample shows distinct combinations can collide and be
collapsed by the seen-dedup).  The spec's Size/Color scenario records
exactly 2 rows. -/
theorem C3_combination_count :
    (∀ ls : List (List Url),
      (pyProduct ls).length = (ls.map List.length).prod) ∧
    (∀ (blocks : List B2AttrBlock) (priceOf : DomState → Option ℚ)
        (st : DomState), (b2ProductRows blocks priceOf [] st).length = 1) ∧
    (∀ (blocks : List B2AttrBlock) (priceOf : DomState → Option ℚ)
        (attrs : List (Url × List Url)) (st : DomState),
      (b2ProductRows blocks priceOf attrs st).length ≤
        ((attrs.map Prod.snd).map List.length).prod) ∧
    (∀ (blocks : List B2AttrBlock) (priceOf : DomState → Option ℚ)
        (attrs : List (Url × List Url)) (st : DomState),
      ((pyProduct (attrs.map Prod.snd)).map
        (optStr (attrs.map Prod.fst))).Nodup →
      (b2ProductRows blocks priceOf attrs st).length =
        ((attrs.map Prod.snd).map List.length).prod) ∧
    (∀ (blocks : List B2AttrBlock) (priceOf : DomState → Option ℚ)
        (st : DomState),
      (b2ProductRows blocks priceOf exScenarioAttrs st).length = 2) := by
  have hlen : ∀ (blocks : List B2AttrBlock) (priceOf : DomState → Option ℚ)
      (attrs : List (Url × List Url)) (st : DomState),
      (b2ProductRows blocks priceOf attrs st).length =
        (seenFilter [] ((pyProduct (attrs.map Prod.snd)).map
          (optStr (attrs.map Prod.fst)))).length ∨ attrs = [] := by
    intro blocks priceOf attrs st
    cases attrs with
    | nil => exact Or.inr rfl
    | cons a as =>
      left
      rw [b2ProductRows, if_neg (by simp)]
      rw [← b2ComboLoop_opts blocks priceOf (((a :: as)).map Prod.fst)
        (pyProduct (((a :: as)).map Prod.snd)) [] st]
      rw [List.length_map]
  refine ⟨pyProduct_length, ?_, ?_, ?_, ?_⟩
  · intro blocks priceOf st
    rfl
  · intro blocks priceOf attrs st
    rcases hlen blocks priceOf attrs st with h | h
    · rw [h]
      calc (seenFilter [] ((pyProduct (attrs.map Prod.snd)).map
            (optStr (attrs.map Prod.fst)))).length
          ≤ ((pyProduct (attrs.map Prod.snd)).map
            (optStr (attrs.map Prod.fst))).length := seenFilter_length_le _ _
        _ = (pyProduct (attrs.map Prod.snd)).length := List.length_map _ _
        _ = ((attrs.map Prod.snd).map List.length).prod := pyProduct_length _
    · subst h
      simp [b2ProductRows]
  · intro blocks priceOf attrs st hnd
    rcases hlen blocks priceOf attrs st with h | h
    · rw [h, seenFilter_eq_self [] _ hnd (by simp), List.length_map,
        pyProduct_length]
    · subst h
      simp [b2ProductRows]
  · intro blocks priceOf st
    have h := b2ComboLoop_opts blocks priceOf (exScenarioAttrs.map Prod.fst)
      (pyProduct (exScenarioAttrs.map Prod.snd)) [] st
    have hl : (b2ProductRows blocks priceOf exScenarioAttrs st).length =
        (seenFilter [] ((pyProduct (exScenarioAttrs.map Prod.snd)).map
          (optStr (exScenarioAttrs.map Prod.fst)))).length := by
      rw [b2ProductRows, if_neg (by simp [exScenarioAttrs])]
      rw [← h, List.length_map]
    rw [hl]
    decide

/-- C3 witness: the equality branch of the amended theorem at the concrete
Size/Color page, whose rendered option strings are pairwise distinct. -/
theorem C3_combination_count_witness :
    (b2ProductRows [] (fun _ => none) exScenarioAttrs []).length =
      ((exScenarioAttrs.map Prod.snd).map List.length).prod :=
  C3_combination_count.2.2.2.1 [] (fun _ => none) exScenarioAttrs []
    (by decide)

/-- C3 counterexample: a page whose attributes are
A:["x; B: y", "x"], B:["z", "y; B: z"] generates 2*2 = 4 combinations, but
two of them render to the same option string, so only 3 PriceRecords are
emitted — the record count does not equal the product of the option-list
sizes. -/
theorem C3_counterexample_collision :
    ((exCollisionAttrs.map Prod.snd).map List.length).prod = 4 ∧
    (b2ProductRows [] (fun _ => none) exCollisionAttrs []).length = 3 := by
  exact ⟨by decide, by decide⟩

theorem set_attribute_block_not_found (blocks : List B2AttrBlock)
    (st : DomState) (name value : Url)
    (h : findAttrBlock blocks name = none) :
    set_attribute blocks st name value = st := by
  rw [set_attribute, h]

theorem set_attribute_option_not_matched (blocks : List B2AttrBlock)
    (st : DomState) (name value : Url) (b : B2AttrBlock)
    (h : findAttrBlock blocks name = some b)
    (hbtn : value ∉ b.buttonItems)
    (hsel : (b.selectOptions.any (fun opts => value ∈ opts)) = false) :
    set_attribute blocks st name value = st := by
  rw [set_attribute, h]
  simp only [if_neg hbtn]
  rw [if_neg (by simp [hsel])]

theorem wsProcessCombos_filter (selOk : Nat → Url × Url → Bool)
    (pricingOf : List (Url × Url) → WsPricing) :
    ∀ combos : List (List (Url × Url)),
      wsProcessCombos selOk pricingOf combos =
        (combos.filter (fun c => wsComboValid selOk 0 c)).map
          (fun c => mkWsEntry c (pricingOf c)) := by
  intro combos
  induction combos with
  | nil => rfl
  | cons combo rest ih =>
    rw [wsProcessCombos, List.filter_cons]
    by_cases h : wsComboValid selOk 0 combo = true
    · rw [if_pos h, if_pos h, List.map_cons, ih]
    · rw [if_neg h, if_neg h, ih]

/-- C7 (amended): in b2_scrape a selection failure is non-fatal and leaves
the attribute at its current value — set_attribute returns the page state
unchanged when the attribute block is not found or the option is not
matched — and the caller still records a row for the combination: the
sequence of recorded option strings is independent of the page's attribute
blocks, of the price oracle and of the starting selection state.  In
ws_scrape a selection failure is also non-fatal to the product and the run
(the loop is total and moves on), but — per the counterexample — the
failed combination is skipped entirely: the recorded entries are exactly
those of the combinations whose every selection succeeds, so no degraded
row is recorded for it. -/
theorem C7_selection_failures :
    (∀ (blocks : List B2AttrBlock) (st : DomState) (name value : Url),
      findAttrBlock blocks name = none →
      set_attribute blocks st name value = st) ∧
    (∀ (blocks : List B2AttrBlock) (st : DomState) (name value : Url)
        (b : B2AttrBlock),
      findAttrBlock blocks name = some b →
      value ∉ b.buttonItems →
      (b.selectOptions.any (fun opts => value ∈ opts)) = false →
      set_attribute blocks st name value = st) ∧
    (∀ (blocks blocks2 : List B2AttrBlock)
        (priceOf priceOf2 : DomState → Option ℚ) (names : List Url)
        (combos : List (List Url)) (seen : List Url) (st st2 : DomState),
      (b2ComboLoop blocks priceOf names combos seen st).map B2Row.opts =
        (b2ComboLoop blocks2 priceOf2 names combos seen st2).map B2Row.opts) ∧
    (∀ (selOk : Nat → Url × Url → Bool)
        (pricingOf : List (Url × Url) → WsPricing)
        (combos : List (List (Url × Url))),
      wsProcessCombos selOk pricingOf combos =
        (combos.filter (fun c => wsComboValid selOk 0 c)).map
          (fun c => mkWsEntry c (pricingOf c))) := by
  refine ⟨set_attribute_block_not_found, set_attribute_option_not_matched,
    ?_, wsProcessCombos_filter⟩
  intro blocks blocks2 priceOf priceOf2 names combos seen st st2
  rw [b2ComboLoop_opts, b2ComboLoop_opts]

/-- C7 witness: set_attribute on a page with no attribute blocks leaves a
concrete selection state unchanged, and on a block whose options do not
contain the value; plus the ws filter law at the concrete example run. -/
theorem C7_selection_failures_witness :
    set_attribute [] [(("A").toList, ("x").toList)] ("A".toList)
      ("y".toList) = [(("A").toList, ("x").toList)] ∧
    set_attribute [⟨some ("A".toList), "attr-a".toList, [], []⟩]
      [] ("A".toList) ("y".toList) = [] ∧
    wsProcessCombos exWsSelOk (fun _ => WsPricing.text ("$5".toList))
      exWsCombos =
      (exWsCombos.filter (fun c => wsComboValid exWsSelOk 0 c)).map
        (fun c => mkWsEntry c ((fun _ => WsPricing.text ("$5".toList)) c)) := by
  refine ⟨?_, ?_, ?_⟩
  · exact C7_selection_failures.1 [] _ _ _ (by rfl)
  · exact C7_selection_failures.2.1 _ _ _ _ _ (by rfl) (by decide) (by rfl)
  · exact C7_selection_failures.2.2.2 exWsSelOk _ exWsCombos

/-- C7 counterexample: two ws combinations, S and M, where selecting M
fails: only the S row is recorded — the loop continues and the run is not
aborted, but no (degraded) row exists for the failed combination,
refuting "the caller still records a row for that combination". -/
theorem C7_counterexample_ws_skips_row :
    wsComboValid exWsSelOk 0 [("2".toList, "M".toList)] = false ∧
    wsProcessCombos exWsSelOk (fun _ => WsPricing.text ("$5".toList))
      exWsCombos =
      [⟨"S".toList, ["$5".toList], []⟩] := by
  exact ⟨by decide, by rfl⟩
